import Mathlib

/-!
Verification of the delivery microservice core: a shallow embedding of the
authorization scope checks, the products repository, the availability and
pricing resolver, and the countries service, together with theorems settling
the specified properties.

Machine integers (i32 ids, u32 dimensions) are embedded as Int and Nat: none
of the verified operations performs arithmetic that can overflow, only
comparisons and equality tests. Fallible storage calls are embedded as
Except-valued functions; the database tables a query reads are passed
explicitly as lists.
-/

/-- Error kinds of the service (errors.rs is summarised by the error design
section of the spec; only the discriminants matter to the theorems). -/
inductive DeliveryError : Type
  | notFound
  | forbidden
  | validate
  | ambiguousMatch
  | noApplicableRate
  | connection
deriving DecidableEq, Repr

/-- Authorization scope: All requires no ownership check, Owned requires the
caller to own the target (models/authorization Scope enum). -/
inductive Scope : Type
  | all
  | owned
deriving DecidableEq, Repr

/-- A row of the roles table: user id plus the optional ownership
discriminant `data` (the store id the role is scoped to). -/
structure UserRole : Type where
  user_id : Int
  data : Option Int
deriving DecidableEq, Repr

/-- A Products row: the binding between a base product and a company package,
owned by a store (fields as used by repos/products.rs). -/
structure Products : Type where
  id : Int
  base_product_id : Int
  store_id : Int
  company_package_id : Int
deriving DecidableEq, Repr

/-- Ownership scope check of ProductsRepoImpl (repos/products.rs,
`is_in_scope`). `roles_query` embeds the diesel query
`Roles::roles.filter(Roles::user_id.eq(user_id_arg)).get_results`: given the
user id it returns either the user's role rows or a storage error. The
source returns `true` for Scope::All; for Scope::Owned with a present target
it tests whether any returned role has `data` equal to the target's store
id (a missing datum counts as no match, per `unwrap_or_default`), treats a
failed roles query as `false` (per `unwrap_or_else(false)`), and returns
`false` when the target is absent. -/
def is_in_scope (roles_query : Int → Except DeliveryError (List UserRole))
    (user_id : Int) (scope : Scope) (obj : Option Products) : Bool :=
  match scope with
  | .all => true
  | .owned =>
    match obj with
    | some o =>
      match roles_query user_id with
      | .ok user_roles =>
        user_roles.any (fun r => (r.data.map (fun d => d == o.store_id)).getD false)
      | .error _ => false
    | none => false

/-- Composite display name of a company package (repos/mod.rs,
`get_company_package_name`): the Rust source formats the company name, a
hyphen, and the package name. -/
def get_company_package_name (company_name : String) (package_name : String) : String :=
  company_name ++ "-" ++ package_name

lemma data_match_iff (od : Option Int) (x : Int) :
    ((od.map (fun d => d == x)).getD false = true) ↔ od = some x := by
  cases od with
  | none => simp
  | some d => simp [beq_iff_eq]

/-- Claim C1: for an Owned-scoped check with a present target whose roles
query succeeds, the check approves the caller iff some returned role's
`data` discriminant equals the target's owning store id; it denies when
every role's datum differs. -/
theorem c1_owned_scope_approves_iff_datum_matches
    (roles_query : Int → Except DeliveryError (List UserRole)) (uid : Int)
    (roles : List UserRole) (o : Products)
    (h : roles_query uid = Except.ok roles) :
    is_in_scope roles_query uid Scope.owned (some o) = true ↔
      ∃ r ∈ roles, r.data = some o.store_id := by
  simp only [is_in_scope, h, List.any_eq_true]
  constructor
  · rintro ⟨r, hr, hmatch⟩
    exact ⟨r, hr, (data_match_iff r.data o.store_id).mp hmatch⟩
  · rintro ⟨r, hr, hdata⟩
    exact ⟨r, hr, (data_match_iff r.data o.store_id).mpr hdata⟩

/-- Witness for C1 at a concrete input: one role scoped to store 5 and a
product owned by store 5. -/
theorem c1_owned_scope_approves_iff_datum_matches_witness :
    ((fun _ : Int => Except.ok (ε := DeliveryError) [UserRole.mk 1 (some 5)]) 1 =
      Except.ok [UserRole.mk 1 (some 5)]) ∧
    (is_in_scope (fun _ => Except.ok [UserRole.mk 1 (some 5)]) 1 Scope.owned
        (some (Products.mk 10 20 5 30)) = true ↔
      ∃ r ∈ [UserRole.mk 1 (some 5)], r.data = some (Products.mk 10 20 5 30).store_id) :=
  ⟨rfl, c1_owned_scope_approves_iff_datum_matches
    (fun _ => Except.ok [UserRole.mk 1 (some 5)]) 1 [UserRole.mk 1 (some 5)]
    (Products.mk 10 20 5 30) rfl⟩

/-- Claim C4 counterexample: at the concrete input of an Owned-scoped check
with an absent target (empty role table, any caller), the scope check
returns `false` (denies), not `true` (approves) as the claim states. -/
theorem c4_absent_target_denied_counterexample :
    is_in_scope (fun _ => Except.ok []) 1 Scope.owned none = false := rfl

/-- Claim C4 (amended): for every Owned-scoped check where the target entity
is absent, the scope check denies the caller (returns `false`), for every
roles query and caller. -/
theorem c4_absent_target_always_denied
    (roles_query : Int → Except DeliveryError (List UserRole)) (uid : Int) :
    is_in_scope roles_query uid Scope.owned none = false := rfl

/-- Claim C5: when the roles query fails, the Owned-scope check with a
present target denies (returns `false`, surfacing as Forbidden further up),
and the check's outcome at every scope and target coincides with the
outcome for a caller holding zero roles; the lookup failure is never
propagated (the result type is Bool, no error channel). -/
theorem c5_role_lookup_failure_is_zero_roles
    (roles_query : Int → Except DeliveryError (List UserRole)) (uid : Int)
    (o : Products) (e : DeliveryError) (hq : roles_query uid = Except.error e) :
    is_in_scope roles_query uid Scope.owned (some o) = false ∧
    ∀ roles_query0 : Int → Except DeliveryError (List UserRole),
      roles_query0 uid = Except.ok [] →
      ∀ scope obj, is_in_scope roles_query uid scope obj =
        is_in_scope roles_query0 uid scope obj := by
  refine ⟨by simp [is_in_scope, hq], ?_⟩
  intro q0 hq0 scope obj
  cases scope with
  | all => rfl
  | owned =>
    cases obj with
    | none => rfl
    | some o1 => simp [is_in_scope, hq, hq0]

/-- Witness for C5 at a concrete input: a roles query failing with a
connection error. -/
theorem c5_role_lookup_failure_is_zero_roles_witness :
    ((fun _ : Int => Except.error (α := List UserRole) DeliveryError.connection) 1 =
      Except.error DeliveryError.connection) ∧
    (is_in_scope (fun _ => Except.error DeliveryError.connection) 1 Scope.owned
        (some (Products.mk 10 20 5 30)) = false ∧
      ∀ roles_query0 : Int → Except DeliveryError (List UserRole),
        roles_query0 1 = Except.ok [] →
        ∀ scope obj, is_in_scope (fun _ => Except.error DeliveryError.connection) 1 scope obj =
          is_in_scope roles_query0 1 scope obj) :=
  ⟨rfl, c5_role_lookup_failure_is_zero_roles
    (fun _ => Except.error DeliveryError.connection) 1 (Products.mk 10 20 5 30)
    DeliveryError.connection rfl⟩

/-- Claim C7: the composite display name is exactly the company name, a
hyphen, and the package name, stated on the underlying character lists. -/
theorem c7_company_package_name_is_company_hyphen_package
    (company_name package_name : String) :
    get_company_package_name company_name package_name =
      company_name ++ "-" ++ package_name ∧
    (get_company_package_name company_name package_name).data =
      company_name.data ++ [Char.ofNat 45] ++ package_name.data := by
  refine ⟨rfl, ?_⟩
  simp [get_company_package_name, String.data_append]

/-! ## Products repository: per-row ACL checking (repos/products.rs) -/

/-- Per-row ACL loop shared by the products repository methods: each
returned row is converted and checked against the ACL in order, the first
denial aborting the whole call with its error (the `for ... { acl::check(...)?; push }`
pattern in create_many, get_by_base_product_id and delete). `acl_check`
embeds `acl::check(&*self.acl, Resource::Products, action, self, Some(&product))`. -/
def check_rows (acl_check : Products → Except DeliveryError Unit) :
    List Products → Except DeliveryError (List Products)
  | [] => Except.ok []
  | p :: ps =>
    match acl_check p with
    | .ok _ => (check_rows acl_check ps).map (fun rest => p :: rest)
    | .error e => Except.error e

/-- The ordering the repository sorts created products by:
`a.id.cmp(&b.id)` ascending. -/
def products_id_le (a b : Products) : Prop := a.id ≤ b.id

instance : DecidableRel products_id_le := fun a b => Int.decLe a.id b.id

instance : IsTotal Products products_id_le := ⟨fun a b => Int.le_total a.id b.id⟩

instance : IsTrans Products products_id_le :=
  ⟨fun _ _ _ hab hbc => le_trans hab hbc⟩

/-- `create_many` of ProductsRepoImpl (repos/products.rs): the rows returned
by the insert are ACL-checked one by one, then sorted ascending by id
(`new_products.sort_by(|a, b| a.id.cmp(&b.id))`). `inserted` is the row list
the storage layer returned, in storage order. -/
def create_many (acl_check : Products → Except DeliveryError Unit)
    (inserted : List Products) : Except DeliveryError (List Products) :=
  (check_rows acl_check inserted).map (List.insertionSort products_id_le)

/-- `get_by_base_product_id` of ProductsRepoImpl (repos/products.rs): the
products table is filtered by base product id, then every returned row is
ACL-checked for Read; any denial aborts the whole call. -/
def get_by_base_product_id (acl_check : Products → Except DeliveryError Unit)
    (products_table : List Products) (base_product_id_arg : Int) :
    Except DeliveryError (List Products) :=
  check_rows acl_check
    (products_table.filter (fun p => p.base_product_id == base_product_id_arg))

/-- `delete` of ProductsRepoImpl (repos/products.rs): same query and per-row
ACL loop as `get_by_base_product_id`, checking the Delete action; the list of
rows to delete is returned only if every row passes. -/
def delete (acl_check : Products → Except DeliveryError Unit)
    (products_table : List Products) (base_product_id_arg : Int) :
    Except DeliveryError (List Products) :=
  check_rows acl_check
    (products_table.filter (fun p => p.base_product_id == base_product_id_arg))

lemma check_rows_ok_eq (acl_check : Products → Except DeliveryError Unit) :
    ∀ (l out : List Products), check_rows acl_check l = Except.ok out → out = l := by
  intro l
  induction l with
  | nil => intro out h; simpa [check_rows] using h.symm
  | cons p ps ih =>
    intro out h
    unfold check_rows at h
    cases hp : acl_check p with
    | ok u =>
      rw [hp] at h
      cases hr : check_rows acl_check ps with
      | ok rest =>
        rw [hr] at h
        simp [Except.map] at h
        rw [← h, ih rest hr]
      | error e => rw [hr] at h; simp [Except.map] at h
    | error e => rw [hp] at h; simp at h

lemma check_rows_error_of_mem (acl_check : Products → Except DeliveryError Unit)
    (p : Products) (e : DeliveryError) (hden : acl_check p = Except.error e) :
    ∀ l : List Products, p ∈ l → ∃ e1, check_rows acl_check l = Except.error e1 := by
  intro l
  induction l with
  | nil => intro h; cases h
  | cons q qs ih =>
    intro hmem
    cases hq : acl_check q with
    | ok u =>
      have hpq : p ∈ qs := by
        rcases List.mem_cons.mp hmem with h | h
        · exact absurd (h ▸ hq) (by simp [hden])
        · exact h
      obtain ⟨e1, he1⟩ := ih hpq
      exact ⟨e1, by simp [check_rows, hq, he1, Except.map]⟩
    | error e2 => exact ⟨e2, by simp [check_rows, hq]⟩

/-- Claim C9: a successful `create_many` returns the created rows sorted in
ascending id order — the output is a permutation of whatever row order the
storage layer returned, sorted by id. -/
theorem c9_create_many_sorted_by_id
    (acl_check : Products → Except DeliveryError Unit)
    (inserted out : List Products)
    (h : create_many acl_check inserted = Except.ok out) :
    List.Sorted products_id_le out ∧ out.Perm inserted := by
  unfold create_many at h
  cases hr : check_rows acl_check inserted with
  | ok checked =>
    rw [hr] at h
    simp [Except.map] at h
    have hc : checked = inserted := check_rows_ok_eq acl_check inserted checked hr
    subst hc
    rw [← h]
    exact ⟨List.sorted_insertionSort products_id_le checked,
      List.perm_insertionSort products_id_le checked⟩
  | error e => rw [hr] at h; simp [Except.map] at h

/-- Witness for C9 at a concrete input: two rows returned in descending id
order come back sorted ascending. -/
theorem c9_create_many_sorted_by_id_witness :
    (create_many (fun _ => Except.ok ())
        [Products.mk 2 20 5 30, Products.mk 1 20 5 30] =
      Except.ok [Products.mk 1 20 5 30, Products.mk 2 20 5 30]) ∧
    (List.Sorted products_id_le [Products.mk 1 20 5 30, Products.mk 2 20 5 30] ∧
      List.Perm [Products.mk 1 20 5 30, Products.mk 2 20 5 30]
        [Products.mk 2 20 5 30, Products.mk 1 20 5 30]) :=
  ⟨rfl, c9_create_many_sorted_by_id (fun _ => Except.ok ())
    [Products.mk 2 20 5 30, Products.mk 1 20 5 30]
    [Products.mk 1 20 5 30, Products.mk 2 20 5 30] rfl⟩

/-- Claim C10: when the ACL denies any single row selected by the base
product id, both `get_by_base_product_id` and `delete` return an error (never
a partial list of the permitted rows). -/
theorem c10_per_row_acl_all_or_nothing
    (acl_check : Products → Except DeliveryError Unit)
    (products_table : List Products) (base_product_id_arg : Int)
    (p : Products) (e : DeliveryError)
    (hmem : p ∈ products_table.filter (fun q => q.base_product_id == base_product_id_arg))
    (hden : acl_check p = Except.error e) :
    (∃ e1, get_by_base_product_id acl_check products_table base_product_id_arg =
      Except.error e1) ∧
    (∃ e2, delete acl_check products_table base_product_id_arg = Except.error e2) := by
  have h := check_rows_error_of_mem acl_check p e hden
    (products_table.filter (fun q => q.base_product_id == base_product_id_arg)) hmem
  exact ⟨h, h⟩

/-- Witness for C10 at a concrete input: a two-row table in which the second
row is denied; both calls fail as a whole. -/
theorem c10_per_row_acl_all_or_nothing_witness :
    ((Products.mk 2 20 7 30) ∈
      [Products.mk 1 20 5 30, Products.mk 2 20 7 30].filter
        (fun q => q.base_product_id == (20 : Int))) ∧
    ((fun q : Products => if q.store_id == 7 then Except.error DeliveryError.forbidden
        else Except.ok ()) (Products.mk 2 20 7 30) =
      Except.error DeliveryError.forbidden) ∧
    ((∃ e1, get_by_base_product_id
        (fun q => if q.store_id == 7 then Except.error DeliveryError.forbidden
          else Except.ok ())
        [Products.mk 1 20 5 30, Products.mk 2 20 7 30] 20 = Except.error e1) ∧
      (∃ e2, delete
        (fun q => if q.store_id == 7 then Except.error DeliveryError.forbidden
          else Except.ok ())
        [Products.mk 1 20 5 30, Products.mk 2 20 7 30] 20 = Except.error e2)) :=
  ⟨by decide, rfl, c10_per_row_acl_all_or_nothing
    (fun q => if q.store_id == 7 then Except.error DeliveryError.forbidden
      else Except.ok ())
    [Products.mk 1 20 5 30, Products.mk 2 20 7 30] 20 (Products.mk 2 20 7 30)
    DeliveryError.forbidden (by decide) rfl⟩

/-! ## Available-packages discovery (services/companies_packages.rs) -/

/-- A Company row: id plus the set of origin countries it ships from. -/
structure Company : Type where
  id : Int
  deliveries_from : List String
deriving DecidableEq, Repr

/-- A CompanyPackage row joined with its package's capacity ceilings: id,
owning company, and the declared max size and max weight. -/
structure CompanyPackage : Type where
  id : Int
  company_id : Int
  max_size : Nat
  max_weight : Nat
deriving DecidableEq, Repr

/-- Ascending-id ordering on company packages. -/
def cp_id_le (a b : CompanyPackage) : Prop := a.id ≤ b.id

instance : DecidableRel cp_id_le := fun a b => Int.decLe a.id b.id

instance : IsTotal CompanyPackage cp_id_le := ⟨fun a b => Int.le_total a.id b.id⟩

instance : IsTrans CompanyPackage cp_id_le :=
  ⟨fun _ _ _ hab hbc => le_trans hab hbc⟩

/-- Modelled from the spec: `find_deliveries_from` of the companies repository
(repos/companies.rs is not under src/, only its caller in
services/companies_packages.rs is) — returns every Company whose origin
country set contains the given country. -/
def find_deliveries_from (companies : List Company) (country : String) :
    List Company :=
  companies.filter (fun c => c.deliveries_from.contains country)

/-- Modelled from the spec: `get_available_packages` of the companies-packages
repository (repos/companies_packages.rs is not under src/) — restricts the
CompanyPackage table to the given company ids, keeps those whose capacity
ceilings admit the requested size and weight (no destination filtering), and
sorts the result ascending by id for determinism. -/
def get_available_packages (companies_packages : List CompanyPackage)
    (companies_ids : List Int) (size weight : Nat) : List CompanyPackage :=
  List.insertionSort cp_id_le
    (companies_packages.filter (fun cp =>
      companies_ids.contains cp.company_id &&
      decide (size ≤ cp.max_size) && decide (weight ≤ cp.max_weight)))

/-- `find_available_from` of CompaniesPackagesServiceImpl
(services/companies_packages.rs): fetches the companies shipping from the
given country, collects their ids, and asks the companies-packages repository
for the available packages for those ids and dimensions. -/
def find_available_from (companies : List Company)
    (companies_packages : List CompanyPackage) (country : String)
    (size weight : Nat) : List CompanyPackage :=
  let companies_ids := (find_deliveries_from companies country).map (fun c => c.id)
  get_available_packages companies_packages companies_ids size weight

/-- Claim C6: the result of `get_available_packages` via `find_available_from`
contains exactly the CompanyPackages (drawn from the whole table, not any
product's bindings) whose company ships from the origin country and whose
ceilings admit the size and weight — destination restrictions play no part —
and the result is sorted ascending by id. -/
theorem c6_available_packages_capacity_and_origin
    (companies : List Company) (companies_packages : List CompanyPackage)
    (country : String) (size weight : Nat) :
    (∀ cp, cp ∈ find_available_from companies companies_packages country size weight ↔
      (cp ∈ companies_packages ∧
        (∃ c ∈ companies, c.id = cp.company_id ∧ country ∈ c.deliveries_from) ∧
        size ≤ cp.max_size ∧ weight ≤ cp.max_weight)) ∧
    List.Sorted cp_id_le
      (find_available_from companies companies_packages country size weight) := by
  constructor
  · intro cp
    unfold find_available_from get_available_packages find_deliveries_from
    rw [(List.perm_insertionSort cp_id_le _).mem_iff]
    simp only [List.mem_filter, List.mem_map, Bool.and_eq_true, decide_eq_true_eq,
      List.contains, List.elem_iff]
    tauto
  · exact List.sorted_insertionSort cp_id_le _

/-! ## Rate tier resolution (spec section 4.4) -/

/-- A rate tier: weight breakpoint, volume breakpoint, price. Tier lists are
stored pre-sorted ascending in both breakpoints. -/
structure RateTier : Type where
  weight_bp : Nat
  volume_bp : Nat
  price : Nat
deriving DecidableEq, Repr

/-- A tier covers an input when both its breakpoints meet or exceed it. -/
def tier_covers (t : RateTier) (weight volume : Nat) : Prop :=
  weight ≤ t.weight_bp ∧ volume ≤ t.volume_bp

instance (t : RateTier) (weight volume : Nat) : Decidable (tier_covers t weight volume) :=
  inferInstanceAs (Decidable (_ ∧ _))

/-- Pre-sortedness of a tier list: ascending in both breakpoints, as
established at load time. -/
def tiers_ascending (tiers : List RateTier) : Prop :=
  tiers.Pairwise (fun a b => a.weight_bp ≤ b.weight_bp ∧ a.volume_bp ≤ b.volume_bp)

/-- The Boolean covering test the tier scan applies to each tier. -/
def covers_pred (weight volume : Nat) (t : RateTier) : Bool :=
  decide (weight ≤ t.weight_bp) && decide (volume ≤ t.volume_bp)

lemma covers_pred_iff (weight volume : Nat) (t : RateTier) :
    covers_pred weight volume t = true ↔ tier_covers t weight volume := by
  simp [covers_pred, tier_covers]

/-- Modelled from the spec: the tier-resolution step of `get_delivery_price`
(the shipping-rates repository and its service method are not under src/,
only the controller route is) — scan the lane's tier list in stored
(ascending) order and return the price of the first tier whose weight and
volume breakpoints both cover the input; fail with NoApplicableRate when no
tier covers it. -/
def get_delivery_price (tiers : List RateTier) (weight volume : Nat) :
    Except DeliveryError Nat :=
  match tiers.find? (covers_pred weight volume) with
  | some t => Except.ok t.price
  | none => Except.error DeliveryError.noApplicableRate

lemma find_covering_minimal (weight volume : Nat) :
    ∀ tiers : List RateTier, tiers_ascending tiers →
    ∀ t0, tiers.find? (covers_pred weight volume) = some t0 →
    ∀ t1 ∈ tiers, tier_covers t1 weight volume →
      t0.weight_bp ≤ t1.weight_bp ∧ t0.volume_bp ≤ t1.volume_bp := by
  intro tiers
  induction tiers with
  | nil => intro _ t0 hf; simp at hf
  | cons x xs ih =>
    intro hasc t0 hf t1 ht1 hcov
    by_cases hx : covers_pred weight volume x = true
    · rw [List.find?_cons_of_pos _ hx] at hf
      have hx0 : x = t0 := by injection hf
      subst hx0
      rcases List.mem_cons.mp ht1 with h | h
      · subst h; exact ⟨le_refl _, le_refl _⟩
      · exact (List.pairwise_cons.mp hasc).1 t1 h
    · rw [List.find?_cons_of_neg _ hx] at hf
      have ht1xs : t1 ∈ xs := by
        rcases List.mem_cons.mp ht1 with h | h
        · exact absurd ((covers_pred_iff weight volume x).mpr (h ▸ hcov)) hx
        · exact h
      exact ih (List.pairwise_cons.mp hasc).2 t0 hf t1 ht1xs hcov

/-- Claim C3: over an ascending tier list, `get_delivery_price` fails with
NoApplicableRate when no tier covers the input, and otherwise returns the
price of a covering tier that is minimal in both breakpoints among all
covering tiers (the first covering tier in ascending order). -/
theorem c3_delivery_price_minimal_covering_tier
    (tiers : List RateTier) (weight volume : Nat)
    (hasc : tiers_ascending tiers) :
    ((∀ t ∈ tiers, ¬ tier_covers t weight volume) →
      get_delivery_price tiers weight volume =
        Except.error DeliveryError.noApplicableRate) ∧
    (∀ t ∈ tiers, tier_covers t weight volume →
      ∃ t0 ∈ tiers, get_delivery_price tiers weight volume = Except.ok t0.price ∧
        tier_covers t0 weight volume ∧
        ∀ t1 ∈ tiers, tier_covers t1 weight volume →
          t0.weight_bp ≤ t1.weight_bp ∧ t0.volume_bp ≤ t1.volume_bp) := by
  constructor
  · intro hnone
    have hfind : tiers.find? (covers_pred weight volume) = none := by
      rw [List.find?_eq_none]
      intro t ht
      intro hc
      exact hnone t ht ((covers_pred_iff weight volume t).mp hc)
    simp [get_delivery_price, hfind]
  · intro t ht hcov
    cases hfind : tiers.find? (covers_pred weight volume) with
    | none =>
      exfalso
      rw [List.find?_eq_none] at hfind
      exact hfind t ht ((covers_pred_iff weight volume t).mpr hcov)
    | some t0 =>
      refine ⟨t0, List.mem_of_find?_eq_some hfind, by simp [get_delivery_price, hfind], ?_, ?_⟩
      · exact (covers_pred_iff weight volume t0).mp (List.find?_some hfind)
      · exact find_covering_minimal weight volume tiers hasc t0 hfind

/-- Witness for C3 at a concrete input: two ascending tiers, an input covered
only by the larger one. -/
theorem c3_delivery_price_minimal_covering_tier_witness :
    tiers_ascending [RateTier.mk 5 5 10, RateTier.mk 10 10 20] ∧
    (∃ t0 ∈ [RateTier.mk 5 5 10, RateTier.mk 10 10 20],
      get_delivery_price [RateTier.mk 5 5 10, RateTier.mk 10 10 20] 6 3 =
        Except.ok t0.price ∧
      tier_covers t0 6 3 ∧
      ∀ t1 ∈ [RateTier.mk 5 5 10, RateTier.mk 10 10 20], tier_covers t1 6 3 →
        t0.weight_bp ≤ t1.weight_bp ∧ t0.volume_bp ≤ t1.volume_bp) :=
  ⟨by simp [tiers_ascending],
    (c3_delivery_price_minimal_covering_tier
      [RateTier.mk 5 5 10, RateTier.mk 10 10 20] 6 3
      (by simp [tiers_ascending])).2
      (RateTier.mk 10 10 20) (by simp) (by simp [tier_covers])⟩

/-! ## v2 shipping resolution (spec section 4.3) -/

/-- A product binding joined with the catalog data the eligibility predicate
consults: the owning company's origin countries, the restriction allow-list
(none means unrestricted), the capacity ceilings, and the rate table keyed by
origin country. -/
structure ShippingBinding : Type where
  id : Int
  company_package_id : Int
  origins : List String
  allowed_to : Option (List String)
  max_volume : Nat
  max_weight : Nat
  rates : List (String × List RateTier)
deriving DecidableEq, Repr

/-- Resolver output: the matched binding plus its computed price. -/
structure AvailablePackageOut : Type where
  shipping_id : Int
  company_package_id : Int
  price : Nat
deriving DecidableEq, Repr

/-- Modelled from the spec: the shared eligibility predicate (its Rust home,
services/products.rs, is not under src/) — a binding is eligible for a
shipment iff its restriction allow-list admits the destination (or there is
no restriction), the weight and volume do not exceed the declared ceilings,
and the owning company lists the origin among its origin countries. -/
def is_eligible (b : ShippingBinding) (delivery_from delivery_to : String)
    (volume weight : Nat) : Bool :=
  (match b.allowed_to with
   | none => true
   | some allow => allow.contains delivery_to) &&
  decide (weight ≤ b.max_weight) && decide (volume ≤ b.max_volume) &&
  b.origins.contains delivery_from

/-- Rate tiers of a binding for a given origin lane (empty when the lane has
no published tiers). -/
def rates_for (b : ShippingBinding) (delivery_from : String) : List RateTier :=
  ((b.rates.find? (fun pr => pr.1 == delivery_from)).map Prod.snd).getD []

/-- Modelled from the spec: `find_available_shipping_for_user_v2` of the
products service (services/products.rs is not under src/, only its controller
caller is) — filter the product's bindings by the shared eligibility
predicate for the four-tuple; zero qualifying bindings is NotFound, exactly
one is priced through tier resolution, and more than one raises
AmbiguousMatch rather than silently picking one. -/
def find_available_shipping_for_user_v2 (bindings : List ShippingBinding)
    (delivery_from delivery_to : String) (volume weight : Nat) :
    Except DeliveryError AvailablePackageOut :=
  match bindings.filter (fun b => is_eligible b delivery_from delivery_to volume weight) with
  | [] => Except.error DeliveryError.notFound
  | [b] =>
    match get_delivery_price (rates_for b delivery_from) weight volume with
    | .ok price => Except.ok (AvailablePackageOut.mk b.id b.company_package_id price)
    | .error e => Except.error e
  | _ => Except.error DeliveryError.ambiguousMatch

/-- Claim C2: whenever more than one binding of the product qualifies for the
(delivery_from, delivery_to, volume, weight) four-tuple, the v2 resolver
fails with AmbiguousMatch — it never returns one of the qualifying
bindings. -/
theorem c2_v2_ambiguous_match_on_multiple_eligible
    (bindings : List ShippingBinding) (delivery_from delivery_to : String)
    (volume weight : Nat)
    (h : 2 ≤ (bindings.filter
      (fun b => is_eligible b delivery_from delivery_to volume weight)).length) :
    find_available_shipping_for_user_v2 bindings delivery_from delivery_to volume weight =
      Except.error DeliveryError.ambiguousMatch := by
  unfold find_available_shipping_for_user_v2
  cases hf : bindings.filter
      (fun b => is_eligible b delivery_from delivery_to volume weight) with
  | nil => rw [hf] at h; simp at h
  | cons b rest =>
    cases rest with
    | nil => rw [hf] at h; simp at h
    | cons b2 rest2 => rfl

/-- Witness for C2 at a concrete input: two bindings both eligible for the
same four-tuple. -/
theorem c2_v2_ambiguous_match_on_multiple_eligible_witness :
    (2 ≤ ([ShippingBinding.mk 1 10 ["USA"] none 50 50 [],
           ShippingBinding.mk 2 11 ["USA"] (some ["CAN"]) 50 50 []].filter
      (fun b => is_eligible b "USA" "CAN" 5 5)).length) ∧
    (find_available_shipping_for_user_v2
        [ShippingBinding.mk 1 10 ["USA"] none 50 50 [],
         ShippingBinding.mk 2 11 ["USA"] (some ["CAN"]) 50 50 []]
        "USA" "CAN" 5 5 = Except.error DeliveryError.ambiguousMatch) :=
  ⟨by decide, c2_v2_ambiguous_match_on_multiple_eligible
    [ShippingBinding.mk 1 10 ["USA"] none 50 50 [],
     ShippingBinding.mk 2 11 ["USA"] (some ["CAN"]) 50 50 []]
    "USA" "CAN" 5 5 (by decide)⟩

/-! ## Country creation inside a transaction (services/countries.rs) -/

/-- Payload for creating a country (models/countries, as used by the
integration test and the controller). -/
structure NewCountry : Type where
  label : String
  level : Int
  parent_label : Option String
  alpha2 : String
  alpha3 : String
  numeric : Int
deriving DecidableEq, Repr

/-- A Country record of the country directory. -/
structure Country : Type where
  label : String
  level : Int
  parent_label : Option String
  alpha2 : String
  alpha3 : String
  numeric : Int
deriving DecidableEq, Repr

/-- Modelled from the spec: the storage boundary's all-or-nothing transaction
(`conn.transaction` is supplied by the external storage layer) — the body
either succeeds, committing its state, or fails, in which case every state
change is rolled back and the original state is kept. -/
def transaction {σ ε α : Type} (body : σ → Except ε (α × σ)) (s : σ) :
    Except ε α × σ :=
  match body s with
  | .ok (a, s1) => (Except.ok a, s1)
  | .error e => (Except.error e, s)

/-- `create` of CountriesServiceImpl (services/countries.rs): the whole
repository create (which inserts the Country and validates its parent) is run
inside `conn.transaction`. `repo_create` embeds `countries_repo.create`, a
fallible multi-step write from storage state to a created Country and a new
storage state. -/
def countries_service_create {σ ε : Type}
    (repo_create : NewCountry → σ → Except ε (Country × σ))
    (new_country : NewCountry) (s : σ) : Except ε Country × σ :=
  transaction (repo_create new_country) s

/-- Claim C8: whenever the country-creation write fails with any error, the
storage state after the service call equals the state before it — no partial
Country state is persisted. -/
theorem c8_create_country_atomic {σ ε : Type}
    (repo_create : NewCountry → σ → Except ε (Country × σ))
    (new_country : NewCountry) (s : σ) (e : ε)
    (h : (countries_service_create repo_create new_country s).1 = Except.error e) :
    (countries_service_create repo_create new_country s).2 = s := by
  unfold countries_service_create transaction at h ⊢
  cases hb : repo_create new_country s with
  | ok pair => rw [hb] at h; obtain ⟨a, s1⟩ := pair; exact Except.noConfusion h
  | error e1 => rfl

/-- Witness for C8 at a concrete input: a repository create that fails midway
leaves the (numeric) storage state untouched. -/
theorem c8_create_country_atomic_witness :
    ((countries_service_create
        (fun _ _ => Except.error (α := Country × Int) DeliveryError.connection)
        (NewCountry.mk "rus" 2 (some "root") "RU" "RUS" 643) 0).1 =
      Except.error DeliveryError.connection) ∧
    ((countries_service_create
        (fun _ _ => Except.error (α := Country × Int) DeliveryError.connection)
        (NewCountry.mk "rus" 2 (some "root") "RU" "RUS" 643) 0).2 = 0) :=
  ⟨rfl, c8_create_country_atomic
    (fun _ _ => Except.error DeliveryError.connection)
    (NewCountry.mk "rus" 2 (some "root") "RU" "RUS" 643) 0
    DeliveryError.connection rfl⟩
